import Mathlib

/-
  Verification of the task-result caching and transactional-commit layer
  (cache-key derivation, result store, transactions, task-runner
  orchestration, and the SERIALIZABLE locking protocol).

  The executable implementation of this layer is not part of the checked-in
  sources (only its documentation is), so every definition below is modelled
  from the specification text, faithful to its words.
-/

namespace PrefectCaching

/-- Modelled from the spec: a parameter value passed to a task invocation.
The `unserializable` variant models a value whose serialization raises,
which the spec requires to surface as a distinct key-derivation error. -/
inductive PValue where
  | int (i : Int)
  | bool (b : Bool)
  | str (s : String)
  | unserializable
deriving DecidableEq, Repr

/-- Modelled from the spec: the parameter mapping of an invocation,
represented as an association list in a canonical order. -/
abbrev Params := List (String × PValue)

/-- Modelled from the spec: the invocation context carrying the
originating-run identifier, the enclosing coordinating-run identifier if
any, and a fingerprint of the code of the unit of work. -/
structure TaskContext where
  task_run_id : String
  flow_run_id : Option String
  task_source : String
  flow_parameters : Params
deriving DecidableEq, Repr

/-- Modelled from the spec: serialization of a single parameter value into
a stable representation; fails (returns `none`) on unserializable values. -/
def serializeValue : PValue → Option String
  | .int i => some ("i:" ++ toString i)
  | .bool b => some ("b:" ++ toString b)
  | .str s => some ("s:" ++ s)
  | .unserializable => none

/-- Modelled from the spec: serialization of the parameter mapping after
removing ignored names; fails when any kept value is unserializable. -/
def serializeParams (ignored : List String) (params : Params) : Option String :=
  let kept := params.filter (fun p => !(ignored.contains p.1))
  (kept.mapM (fun p => (serializeValue p.2).map (fun s => p.1 ++ "=" ++ s))).map
    (fun parts => String.intercalate ";" parts)

/-- Modelled from the spec: the (idealized, collision-free) hash used to
turn a stable byte representation into a cache-key contribution. -/
def hashStr (s : String) : String := "h:" ++ s

/-- Modelled from the spec: the distinct error kind raised when key
derivation fails, for example on an unserializable input. -/
inductive DeriveError where
  | keyDerivationError (msg : String)
deriving DecidableEq, Repr

/-- Modelled from the spec: one key-derivation component of a cache policy:
inputs-hash (with its set of ignored input names), source-fingerprint,
run-id, flow-parameters, a user-supplied custom key function, or the
no-cache component that never yields a key. -/
inductive KeyComponent where
  | inputs (ignored : List String)
  | taskSource
  | runId
  | flowParameters
  | cacheKeyFn (f : TaskContext → Params → Except DeriveError (Option String))
  | noCache

/-- Modelled from the spec: the isolation level of a cache policy. -/
inductive IsolationLevel where
  | readCommitted
  | serializable
deriving DecidableEq, Repr

/-- Modelled from the spec: a composable cache policy: an ordered list of
key-derivation components, an isolation level, an optional key-storage
override and an optional lock-manager reference. -/
structure CachePolicy where
  components : List KeyComponent
  isolation_level : IsolationLevel
  key_storage : Option String
  lock_manager : Option String

/-- Modelled from the spec: the contribution of a single component:
either a key fragment, no key (the no-cache component), or a distinct
derivation error (unserializable inputs, failing custom function). -/
def deriveComponent (ctx : TaskContext) (params : Params) :
    KeyComponent → Except DeriveError (Option String)
  | .inputs ignored =>
      match serializeParams ignored params with
      | some s => .ok (some (hashStr s))
      | none => .error (.keyDerivationError "unserializable input")
  | .taskSource => .ok (some (hashStr ctx.task_source))
  | .runId => .ok (some (ctx.flow_run_id.getD ctx.task_run_id))
  | .flowParameters =>
      match serializeParams [] ctx.flow_parameters with
      | some s => .ok (some (hashStr s))
      | none => .error (.keyDerivationError "unserializable flow parameter")
  | .cacheKeyFn f => f ctx params
  | .noCache => .ok none

/-- Componentwise derivation over a list of components, in order; the
first component error aborts the whole derivation with that error. -/
def deriveParts (ctx : TaskContext) (params : Params) :
    List KeyComponent → Except DeriveError (List (Option String))
  | [] => .ok []
  | c :: rest =>
      match deriveComponent ctx params c with
      | .error e => .error e
      | .ok p =>
          match deriveParts ctx params rest with
          | .error e => .error e
          | .ok ps => .ok (p :: ps)

/-- Sequencing of the component contributions: if any component produced
no contribution, the combined key is undefined. -/
def seqContributions : List (Option String) → Option (List String)
  | [] => some []
  | none :: _ => none
  | some k :: rest =>
      match seqContributions rest with
      | none => none
      | some ks => some (k :: ks)

/-- Modelled from the spec: key derivation for a whole policy. Each
component contributes in order; a single component is used verbatim; a
combination concatenates the contributions and hashes the concatenation.
If any component yields no key the combined key is undefined; a component
error propagates as a distinct error. -/
def CachePolicy.derive (p : CachePolicy) (ctx : TaskContext) (params : Params) :
    Except DeriveError (Option String) :=
  match deriveParts ctx params p.components with
  | .error e => .error e
  | .ok parts =>
      match seqContributions parts with
      | none => .ok none
      | some [k] => .ok (some k)
      | some keys => .ok (some (hashStr (String.intercalate "|" keys)))

/-- The key produced by a derivation outcome, if any: an error produces no
key, exactly like the no-cache outcome. -/
def derivedKey : Except DeriveError (Option String) → Option String
  | .ok k => k
  | .error _ => none

/-- Modelled from the spec: policy combination concatenates the
key-derivation components in order; configuration of the left operand is
kept. -/
def CachePolicy.combine (p q : CachePolicy) : CachePolicy :=
  ⟨p.components ++ q.components, p.isolation_level, p.key_storage, p.lock_manager⟩

/-- Modelled from the spec: subtraction adds an ignored input name to the
inputs-hash component and leaves every other component unchanged. -/
def KeyComponent.subtractInput (name : String) : KeyComponent → KeyComponent
  | .inputs ignored => .inputs (name :: ignored)
  | c => c

/-- Modelled from the spec: policy subtraction removes a named input from
the inputs-hash component of the policy. -/
def CachePolicy.subtract (p : CachePolicy) (name : String) : CachePolicy :=
  ⟨p.components.map (KeyComponent.subtractInput name), p.isolation_level,
   p.key_storage, p.lock_manager⟩

/-- Modelled from the spec: `.configure` returns a new policy value with
isolation level, lock manager and key storage optionally overridden. -/
def CachePolicy.configure (p : CachePolicy) (iso : Option IsolationLevel)
    (lock : Option String) (storage : Option String) : CachePolicy :=
  ⟨p.components, iso.getD p.isolation_level,
   storage.orElse (fun _ => p.key_storage), lock.orElse (fun _ => p.lock_manager)⟩

/-- Modelled from the spec: the prepackaged INPUTS policy. -/
def INPUTS : CachePolicy := ⟨[.inputs []], .readCommitted, none, none⟩

/-- Modelled from the spec: the prepackaged TASK_SOURCE policy. -/
def TASK_SOURCE : CachePolicy := ⟨[.taskSource], .readCommitted, none, none⟩

/-- Modelled from the spec: the prepackaged RUN_ID policy. -/
def RUN_ID : CachePolicy := ⟨[.runId], .readCommitted, none, none⟩

/-- Modelled from the spec: the prepackaged FLOW_PARAMETERS policy. -/
def FLOW_PARAMETERS : CachePolicy := ⟨[.flowParameters], .readCommitted, none, none⟩

/-- Modelled from the spec: the prepackaged NO_CACHE policy, which always
yields no key and so disables both lookup and persistence. -/
def NO_CACHE : CachePolicy := ⟨[.noCache], .readCommitted, none, none⟩

/-- Modelled from the spec: the prepackaged DEFAULT policy combining the
inputs, the code definition and the prevailing run identifier. -/
def DEFAULT : CachePolicy := ⟨[.inputs [], .taskSource, .runId], .readCommitted, none, none⟩

/-- Modelled from the spec: a stored cache record: cache key, value
payload, creation timestamp and optional expiration timestamp. -/
structure ResultRecord where
  key : String
  value : PValue
  created : Nat
  expiration : Option Nat
deriving DecidableEq, Repr

/-- Lookup of the first record stored under a key in an association list. -/
def lookupRecord : List (String × ResultRecord) → String → Option ResultRecord
  | [], _ => none
  | kr :: rest, key => if kr.1 = key then some kr.2 else lookupRecord rest key

/-- Lookup of the last record staged under a key: the last writer for a
key is the one whose record wins when the staged list is committed in
order. -/
def lastStagedRecord (staged : List (String × ResultRecord)) (key : String) :
    Option ResultRecord :=
  lookupRecord staged.reverse key

/-- Modelled from the spec: the expiration check applied on every read: a
record whose expiration timestamp has passed is treated as absent. -/
def applyExpiration (r : ResultRecord) (now : Nat) : Option ResultRecord :=
  match r.expiration with
  | none => some r
  | some t => if t < now then none else some r

/-- Modelled from the spec: the result store, a key-to-record persistence
mapping holding only committed writes. -/
structure ResultStore where
  records : List (String × ResultRecord)
deriving DecidableEq, Repr

/-- Modelled from the spec: `read` returns the committed record for a key,
treating a record whose expiration timestamp has passed as absent. -/
def ResultStore.read (s : ResultStore) (key : String) (now : Nat) :
    Option ResultRecord :=
  match lookupRecord s.records key with
  | none => none
  | some r => applyExpiration r now

/-- Modelled from the spec: `exists` for a key, with the same expiration
semantics as `read`. -/
def ResultStore.existsKey (s : ResultStore) (key : String) (now : Nat) : Bool :=
  (s.read key now).isSome

/-- Modelled from the spec: `write` replaces the record stored under a key
with a new record. -/
def ResultStore.write (s : ResultStore) (key : String) (r : ResultRecord) :
    ResultStore :=
  ⟨(key, r) :: s.records.filter (fun kr => !(kr.1 = key : Bool))⟩

/-- Modelled from the spec: the transaction state machine values. -/
inductive TxState where
  | opened
  | committing
  | committed
  | rolledBack
deriving DecidableEq, Repr

/-- Modelled from the spec: a transaction: its ordered list of staged
(key, record) writes, its state, and the lock keys it holds. -/
structure Transaction where
  staged : List (String × ResultRecord)
  txState : TxState
  heldLocks : List String
deriving DecidableEq, Repr

/-- Modelled from the spec: merging a committed nested transaction into
its parent staged set: the parent wins on key collision, so only the
child entries whose keys the parent did not stage are appended. -/
def mergeStaged (parent child : List (String × ResultRecord)) :
    List (String × ResultRecord) :=
  parent ++ child.filter (fun kr => !(parent.any (fun pr => pr.1 == kr.1)))

/-- Modelled from the spec: the whole-system state threaded through the
runner: the committed store, the stack of open transactions (innermost
first), the lock table (key, holder) and the current time. -/
structure SysState where
  store : ResultStore
  txStack : List Transaction
  locks : List (String × String)
  now : Nat
deriving DecidableEq, Repr

/-- Modelled from the spec: entering a transaction scope pushes a fresh
open transaction, child of the currently active one if any. -/
def beginTx (st : SysState) : SysState :=
  ⟨st.store, ⟨[], .opened, []⟩ :: st.txStack, st.locks, st.now⟩

/-- Release of the lock-table entries for a list of keys. -/
def releaseLocks (locks : List (String × String)) (keys : List String) :
    List (String × String) :=
  locks.filter (fun kh => !(keys.contains kh.1))

/-- Modelled from the spec: the outermost commit writes each staged record
to the store in order, so the last writer for a key wins. -/
def commitWrites (s : ResultStore) : List (String × ResultRecord) → ResultStore
  | [] => s
  | kr :: rest => commitWrites (s.write kr.1 kr.2) rest

/-- Modelled from the spec: committing the innermost transaction. A nested
transaction merges its staged writes into its parent (parent wins on key
collision), transfers its locks to the parent and becomes committed
without touching the store; the outermost transaction writes every staged
record to the store, releases its locks and becomes committed. Returns the
resulting system state and the finished transaction. -/
def commitTx (st : SysState) : SysState × Option Transaction :=
  match st.txStack with
  | [] => (st, none)
  | tx :: parent :: rest =>
      (⟨st.store,
        ⟨mergeStaged parent.staged tx.staged, parent.txState,
         parent.heldLocks ++ tx.heldLocks⟩ :: rest,
        st.locks, st.now⟩,
       some ⟨tx.staged, .committed, tx.heldLocks⟩)
  | [tx] =>
      (⟨commitWrites st.store tx.staged, [],
        releaseLocks st.locks tx.heldLocks, st.now⟩,
       some ⟨tx.staged, .committed, []⟩)

/-- Modelled from the spec: rolling back the innermost transaction
discards its staged writes, releases its locks and marks it rolled back;
the store is untouched. -/
def rollbackTx (st : SysState) : SysState × Option Transaction :=
  match st.txStack with
  | [] => (st, none)
  | tx :: rest =>
      (⟨st.store, rest, releaseLocks st.locks tx.heldLocks, st.now⟩,
       some ⟨tx.staged, .rolledBack, []⟩)

/-- Modelled from the spec: staging a cache write. With an open
transaction the write is appended to the innermost staged list; with no
open transaction it is an implicit immediately-committed write to the
store. -/
def stageWrite (st : SysState) (key : String) (rec : ResultRecord) : SysState :=
  match st.txStack with
  | [] => ⟨st.store.write key rec, [], st.locks, st.now⟩
  | tx :: rest =>
      ⟨st.store, ⟨tx.staged ++ [(key, rec)], tx.txState, tx.heldLocks⟩ :: rest,
       st.locks, st.now⟩

/-- Lookup of a key among the staged writes of the open transactions,
innermost first. -/
def lookupStaged : List Transaction → String → Option ResultRecord
  | [], _ => none
  | tx :: rest, key =>
      match lastStagedRecord tx.staged key with
      | some r => some r
      | none => lookupStaged rest key

/-- Modelled from the spec: the cache lookup a task performs: it consults
the active transactions and then the committed store, with the expiration
check applied to whichever record is found. -/
def readThroughTx (st : SysState) (key : String) : Option ResultRecord :=
  match lookupStaged st.txStack key with
  | some r => applyExpiration r st.now
  | none => st.store.read key st.now

/-- Modelled from the spec: the tri-state per-task refresh setting. -/
inductive RefreshSetting where
  | forceRefresh
  | neverRefresh
  | unset
deriving DecidableEq, Repr

/-- Modelled from the spec: the effective refresh decision for an
invocation: an explicit per-task setting wins, and only the unset state
falls back to the process-wide default-refresh flag. -/
def effectiveRefresh (r : RefreshSetting) (globalRefresh : Bool) : Bool :=
  match r with
  | .forceRefresh => true
  | .neverRefresh => false
  | .unset => globalRefresh

/-- Modelled from the spec: the per-task caching configuration surface:
cache policy, optional expiration duration, the tri-state refresh setting
and the result-persistence flag. -/
structure TaskConfig where
  policy : CachePolicy
  cache_expiration : Option Nat
  refresh_cache : RefreshSetting
  persist_result : Bool

/-- Modelled from the spec: a task invocation: its configuration, the
value its underlying work computes, and whether the work raises when
executed. -/
structure TaskSpec where
  config : TaskConfig
  work : PValue
  raises : Bool

/-- The observable outcome of one task invocation: whether the underlying
work executed, whether the result came from the cache, whether the work
raised, the returned value, and whether a key-derivation diagnostic was
emitted. -/
structure RunOutcome where
  executed : Bool
  fromCache : Bool
  raised : Bool
  result : Option PValue
  diagnostic : Bool
deriving DecidableEq, Repr

/-- Modelled from the spec: executing the underlying work and staging the
result record (with any configured expiration) into the active
transaction; a raising task stages nothing. -/
def execStage (spec : TaskSpec) (key : String) (st : SysState) :
    RunOutcome × SysState :=
  if spec.raises then (⟨true, false, true, none, false⟩, st)
  else
    (⟨true, false, false, some spec.work, false⟩,
     stageWrite st key
       ⟨key, spec.work, st.now,
        spec.config.cache_expiration.map (fun d => st.now + d)⟩)

/-- Modelled from the spec: the task-runner orchestration for one
invocation: result persistence gates all caching; a key-derivation error
means unconditional execution with a diagnostic and no staging; a no-key
policy means unconditional execution without store interaction; a
requested refresh skips lookup but still stages; otherwise an unexpired
record short-circuits to a cached outcome and a miss executes and stages. -/
def runTask (spec : TaskSpec) (globalRefresh : Bool) (ctx : TaskContext)
    (params : Params) (st : SysState) : RunOutcome × SysState :=
  if spec.config.persist_result = false then
    if spec.raises then (⟨true, false, true, none, false⟩, st)
    else (⟨true, false, false, some spec.work, false⟩, st)
  else
    match spec.config.policy.derive ctx params with
    | .error _ =>
        if spec.raises then (⟨true, false, true, none, true⟩, st)
        else (⟨true, false, false, some spec.work, true⟩, st)
    | .ok none =>
        if spec.raises then (⟨true, false, true, none, false⟩, st)
        else (⟨true, false, false, some spec.work, false⟩, st)
    | .ok (some key) =>
        if effectiveRefresh spec.config.refresh_cache globalRefresh then
          execStage spec key st
        else
          match readThroughTx st key with
          | some r => (⟨false, true, false, some r.value, false⟩, st)
          | none => execStage spec key st

/-- The observable outcome of running a two-task transactional scope. -/
structure ScopeOutcome where
  finalState : SysState
  succeeded : Bool
  out1 : Option RunOutcome
  out2 : Option RunOutcome
deriving DecidableEq, Repr

/-- Modelled from the spec: a transaction scope that runs two tasks in
order: the scope opens a transaction, rolls back and reports failure as
soon as either task raises, and commits when both succeed. -/
def runTwoTaskScope (t1 t2 : TaskSpec) (globalRefresh : Bool)
    (ctx : TaskContext) (p1 p2 : Params) (st : SysState) : ScopeOutcome :=
  let st1 := beginTx st
  let r1 := runTask t1 globalRefresh ctx p1 st1
  if r1.1.raised then
    ⟨(rollbackTx r1.2).1, false, some r1.1, none⟩
  else
    let r2 := runTask t2 globalRefresh ctx p2 r1.2
    if r2.1.raised then
      ⟨(rollbackTx r2.2).1, false, some r1.1, some r2.1⟩
    else
      ⟨(commitTx r2.2).1, true, some r1.1, some r2.1⟩

/-- Modelled from the spec: the phase of one concurrent invocation in the
SERIALIZABLE locking protocol: waiting to acquire the lock for the shared
cache key, holding the lock and about to re-check the store, executing
the underlying work, finished with a cached value it observed, or
finished having executed and committed. -/
inductive WPhase where
  | start
  | haveLock
  | running
  | doneCached (observed : PValue)
  | doneExec
deriving DecidableEq, Repr

/-- Identity of one of the two concurrent invocations. -/
inductive Who where
  | w0
  | w1
deriving DecidableEq, Repr

/-- Modelled from the spec: the shared state of two concurrent invocations
of SERIALIZABLE-isolated cached work for one cache key: the committed
record value for that key if any, the current lock holder if any, and the
phase of each invocation. -/
structure SerialState where
  committed : Option PValue
  lockHolder : Option Who
  ph0 : WPhase
  ph1 : WPhase
deriving DecidableEq, Repr

/-- Modelled from the spec: one interleaved step of the SERIALIZABLE
protocol, with the work of the two invocations computing `v0` and `v1`:
a waiting invocation acquires the free lock; a lock holder re-checks the
store and either observes a committed record (releasing the lock, cached
outcome) or finds no record and proceeds to execute; an executing holder
commits its record and releases the lock. -/
inductive SerialStep (v0 v1 : PValue) : SerialState → SerialState → Prop where
  | acquire0 (c : Option PValue) (p1 : WPhase) :
      SerialStep v0 v1 ⟨c, none, .start, p1⟩ ⟨c, some .w0, .haveLock, p1⟩
  | acquire1 (c : Option PValue) (p0 : WPhase) :
      SerialStep v0 v1 ⟨c, none, p0, .start⟩ ⟨c, some .w1, p0, .haveLock⟩
  | hit0 (w : PValue) (l : Option Who) (p1 : WPhase) :
      SerialStep v0 v1 ⟨some w, l, .haveLock, p1⟩ ⟨some w, none, .doneCached w, p1⟩
  | hit1 (w : PValue) (l : Option Who) (p0 : WPhase) :
      SerialStep v0 v1 ⟨some w, l, p0, .haveLock⟩ ⟨some w, none, p0, .doneCached w⟩
  | miss0 (l : Option Who) (p1 : WPhase) :
      SerialStep v0 v1 ⟨none, l, .haveLock, p1⟩ ⟨none, l, .running, p1⟩
  | miss1 (l : Option Who) (p0 : WPhase) :
      SerialStep v0 v1 ⟨none, l, p0, .haveLock⟩ ⟨none, l, p0, .running⟩
  | commit0 (c : Option PValue) (l : Option Who) (p1 : WPhase) :
      SerialStep v0 v1 ⟨c, l, .running, p1⟩ ⟨some v0, none, .doneExec, p1⟩
  | commit1 (c : Option PValue) (l : Option Who) (p0 : WPhase) :
      SerialStep v0 v1 ⟨c, l, p0, .running⟩ ⟨some v1, none, p0, .doneExec⟩

/-- The initial state of the two concurrent invocations: no committed
record for the shared key, the lock free, both invocations waiting. -/
def serialInit : SerialState := ⟨none, none, .start, .start⟩

/-- Reachability of a protocol state from the initial state by interleaved
steps. -/
def SerialReachable (v0 v1 : PValue) (s : SerialState) : Prop :=
  Relation.ReflTransGen (SerialStep v0 v1) serialInit s

/-- A finished invocation: it either executed or took the cached value. -/
def isDone : WPhase → Prop
  | .doneExec => True
  | .doneCached _ => True
  | _ => False

/-- The inductive invariant of the SERIALIZABLE protocol: lock ownership
of the checking and executing phases, emptiness of the store while an
executor holds the lock, the committed value recorded by each finished
invocation, and mutual exclusion of the two executions. -/
def SerialInv (v0 v1 : PValue) (s : SerialState) : Prop :=
  ((s.ph0 = .haveLock ∨ s.ph0 = .running) → s.lockHolder = some .w0) ∧
  ((s.ph1 = .haveLock ∨ s.ph1 = .running) → s.lockHolder = some .w1) ∧
  (s.ph0 = .running → s.committed = none) ∧
  (s.ph1 = .running → s.committed = none) ∧
  (s.ph0 = .doneExec → s.committed = some v0) ∧
  (s.ph1 = .doneExec → s.committed = some v1) ∧
  (∀ w, s.ph0 = .doneCached w → s.committed = some w) ∧
  (∀ w, s.ph1 = .doneCached w → s.committed = some w) ∧
  (s.committed.isSome = true → (s.ph0 = .doneExec ∨ s.ph1 = .doneExec)) ∧
  ¬(s.ph0 = .doneExec ∧ s.ph1 = .doneExec)

/-- Decidable equality of derivation outcomes, used to evaluate concrete
scenarios. -/
instance : DecidableEq (Except DeriveError (Option String)) := fun a b =>
  match a, b with
  | .ok x, .ok y =>
      match decEq x y with
      | isTrue h => isTrue (by rw [h])
      | isFalse h => isFalse (fun hh => h (Except.ok.inj hh))
  | .error e, .error f =>
      match decEq e f with
      | isTrue h => isTrue (by rw [h])
      | isFalse h => isFalse (fun hh => h (Except.error.inj hh))
  | .ok _, .error _ => isFalse (fun h => Except.noConfusion h)
  | .error _, .ok _ => isFalse (fun h => Except.noConfusion h)

/-- A fixed concrete invocation context used by concrete scenarios. -/
def ctx0 : TaskContext := ⟨"task-run-1", some "flow-run-1", "def my_task: return 42", []⟩

/-- A policy whose single component is a constant custom key function. -/
def constKeyPolicy (k : String) : CachePolicy :=
  ⟨[.cacheKeyFn (fun _ _ => .ok (some k))], .readCommitted, none, none⟩

/-- A task writing under a constant key with a one-second expiration. -/
def taskC4 (k : String) (v : PValue) : TaskSpec :=
  ⟨⟨constKeyPolicy k, some 1, .unset, true⟩, v, false⟩

/-- A task under a constant key that always refreshes. -/
def taskC5a : TaskSpec :=
  ⟨⟨constKeyPolicy "k5", none, .forceRefresh, true⟩, PValue.int 2, false⟩

/-- A task under a constant key that never refreshes. -/
def taskC5b : TaskSpec :=
  ⟨⟨constKeyPolicy "k5", none, .neverRefresh, true⟩, PValue.int 2, false⟩

/-- A store holding a valid unexpired record under the constant key. -/
def storeC5 : ResultStore := ⟨[("k5", ⟨"k5", PValue.int 1, 0, none⟩)]⟩

/-- A task whose policy cannot serialize its input. -/
def taskC9 : TaskSpec := ⟨⟨INPUTS, none, .unset, true⟩, PValue.str "out", false⟩

/-- A non-persisting task whose policy nevertheless derives a key. -/
def taskC10 : TaskSpec := ⟨⟨constKeyPolicy "k10", none, .unset, false⟩, PValue.int 7, false⟩

/-- The first task of the doc example, staging under a static key. -/
def taskC1a : TaskSpec :=
  ⟨⟨constKeyPolicy "static-key-1", none, .unset, true⟩, PValue.str "some-data", false⟩

/-- The second task of the doc example, raising under a static key. -/
def taskC1b : TaskSpec :=
  ⟨⟨constKeyPolicy "static-key-2", none, .unset, true⟩, PValue.int 0, true⟩

/-- A persisting, never-refreshing INPUTS task used by the determinism
scenario. -/
def specC2 : TaskSpec := ⟨⟨INPUTS, none, .neverRefresh, true⟩, PValue.str "res", false⟩

/-- The invariant holds in the initial state. -/
theorem serialInv_init (v0 v1 : PValue) : SerialInv v0 v1 serialInit := by
  simp [SerialInv, serialInit]

/-- The invariant is preserved by every protocol step. -/
theorem serialInv_step (v0 v1 : PValue) (s t : SerialState)
    (hst : SerialStep v0 v1 s t) (hinv : SerialInv v0 v1 s) :
    SerialInv v0 v1 t := by
  cases hst <;>
    simp only [SerialInv] at hinv ⊢ <;>
    obtain ⟨h1, h2, h3, h4, h5, h6, h7, h8, h9, h10⟩ := hinv <;>
    simp_all

/-- The invariant holds in every reachable state. -/
theorem serialInv_reachable (v0 v1 : PValue) (s : SerialState)
    (h : SerialReachable v0 v1 s) : SerialInv v0 v1 s := by
  induction h with
  | refl => exact serialInv_init v0 v1
  | tail _ hstep ih => exact serialInv_step v0 v1 _ _ hstep ih

section HelperLemmas

/-- Sequencing a list of contributions yields `none` whenever `none`
occurs among them. -/
theorem seqContributions_none_of_mem (parts : List (Option String))
    (h : none ∈ parts) : seqContributions parts = none := by
  induction parts with
  | nil => simp at h
  | cons a rest ih =>
      cases a with
      | none => rfl
      | some k =>
          rcases List.mem_cons.mp h with ha | hmem
          · exact absurd ha (by simp)
          · simp [seqContributions, ih hmem]

/-- If a component of a policy contributes no key fragment and the
componentwise derivation succeeds, the collected contributions contain
`none`. -/
theorem none_mem_parts_of_component (ctx : TaskContext) (params : Params)
    (comps : List KeyComponent) (c : KeyComponent) (hc : c ∈ comps)
    (hnone : derivedKey (deriveComponent ctx params c) = none)
    (parts : List (Option String))
    (hok : deriveParts ctx params comps = .ok parts) :
    none ∈ parts := by
  induction comps generalizing parts with
  | nil => simp at hc
  | cons a rest ih =>
      rw [deriveParts] at hok
      cases hda : deriveComponent ctx params a with
      | error e => rw [hda] at hok; exact absurd hok (by simp)
      | ok pa =>
          rw [hda] at hok
          cases hdr : deriveParts ctx params rest with
          | error e => rw [hdr] at hok; exact absurd hok (by simp)
          | ok prest =>
              rw [hdr] at hok
              simp only [Except.ok.injEq] at hok
              subst hok
              rcases List.mem_cons.mp hc with rfl | hmem
              · rw [hda] at hnone
                simp [derivedKey] at hnone
                subst hnone
                exact List.mem_cons_self _ _
              · exact List.mem_cons_of_mem _ (ih hmem prest hdr)

/-- If any component of a policy produces no key fragment (including by
failing), the whole policy produces no key. -/
theorem derive_none_of_component_none (p : CachePolicy) (ctx : TaskContext)
    (params : Params) (c : KeyComponent) (hc : c ∈ p.components)
    (hnone : derivedKey (deriveComponent ctx params c) = none) :
    derivedKey (p.derive ctx params) = none := by
  unfold CachePolicy.derive
  cases hok : deriveParts ctx params p.components with
  | error e => simp [derivedKey]
  | ok parts =>
      have hmem := none_mem_parts_of_component ctx params p.components c hc hnone parts hok
      have hseq := seqContributions_none_of_mem parts hmem
      simp [hseq, derivedKey]

end HelperLemmas

/-- Claim C2: key derivation is deterministic: two calls of `derive` with
the same policy and the same logical inputs yield the same key outcome
(in particular the same key string, or in both runs no key). In this
embedding `derive` is a pure function of the policy, the context and the
parameters, so determinism is congruence; operationally, running the same
task twice against an initially clean store makes the second invocation a
cache hit on the key derived by the first. -/
theorem derive_deterministic :
    (∀ (p q : CachePolicy) (ctx1 ctx2 : TaskContext) (ps1 ps2 : Params),
       p = q → ctx1 = ctx2 → ps1 = ps2 →
       p.derive ctx1 ps1 = q.derive ctx2 ps2) ∧
    (∀ (spec : TaskSpec) (g : Bool) (ctx : TaskContext) (params : Params)
       (k : String) (store0 : ResultStore) (locks0 : List (String × String))
       (T : Nat),
       spec.config.persist_result = true →
       spec.config.policy.derive ctx params = .ok (some k) →
       spec.raises = false →
       effectiveRefresh spec.config.refresh_cache g = false →
       store0.read k T = none →
       (runTask spec g ctx params ⟨store0, [], locks0, T⟩).1.executed = true ∧
       (runTask spec g ctx params
          (runTask spec g ctx params ⟨store0, [], locks0, T⟩).2).1
         = ⟨false, true, false, some spec.work, false⟩) := by
  constructor
  · intro p q ctx1 ctx2 ps1 ps2 hp hc hps
    subst hp; subst hc; subst hps; rfl
  · intro spec g ctx params k store0 locks0 T hp hd hr href hmiss
    have hread : readThroughTx ⟨store0, [], locks0, T⟩ k = none := by
      simp [readThroughTx, lookupStaged, hmiss]
    have h1 : runTask spec g ctx params ⟨store0, [], locks0, T⟩
        = (⟨true, false, false, some spec.work, false⟩,
           stageWrite ⟨store0, [], locks0, T⟩ k
             ⟨k, spec.work, T,
              spec.config.cache_expiration.map (fun d => T + d)⟩) := by
      simp [runTask, hp, hd, href, hread, execStage, hr]
    rw [h1]
    refine ⟨rfl, ?_⟩
    have hread2 : readThroughTx
        ⟨store0.write k ⟨k, spec.work, T,
           spec.config.cache_expiration.map (fun d => T + d)⟩, [], locks0, T⟩ k
        = some ⟨k, spec.work, T,
            spec.config.cache_expiration.map (fun d => T + d)⟩ := by
      simp [readThroughTx, lookupStaged, ResultStore.read, ResultStore.write,
        lookupRecord]
      cases hce : spec.config.cache_expiration with
      | none => simp [applyExpiration]
      | some d =>
          have hnl : ¬ (T + d < T) := Nat.not_lt.mpr (Nat.le_add_right T d)
          simp [applyExpiration, hnl]
    simp [stageWrite, runTask, hp, hd, href, hread2]

/-- Claim C2 witness: deriving the INPUTS key twice at a concrete context
and parameter map yields the same outcome, and the second of two identical
invocations is a cache hit carrying the value computed by the first. -/
theorem derive_deterministic_witness :
    INPUTS.derive ctx0 [("x", PValue.int 1)] = INPUTS.derive ctx0 [("x", PValue.int 1)] ∧
    (runTask specC2 false ctx0 [("x", PValue.int 1)]
       (runTask specC2 false ctx0 [("x", PValue.int 1)] ⟨⟨[]⟩, [], [], 0⟩).2).1
      = ⟨false, true, false, some (PValue.str "res"), false⟩ := by
  refine ⟨derive_deterministic.1 INPUTS INPUTS ctx0 ctx0 _ _ rfl rfl rfl, ?_⟩
  exact (derive_deterministic.2 specC2 false ctx0 [("x", PValue.int 1)] "h:x=i:1"
    ⟨[]⟩ [] 0 rfl rfl rfl rfl rfl).2

/-- Claim C6: the no-key component is absorbing under policy combination:
combining the no-cache component with any policy on either side yields a
policy that still produces no key; and in general, whenever any component
of a policy fails to produce a contribution, the combined key is
undefined. -/
theorem nocache_absorbing :
    (∀ (p : CachePolicy) (ctx : TaskContext) (params : Params),
       derivedKey ((NO_CACHE.combine p).derive ctx params) = none ∧
       derivedKey ((p.combine NO_CACHE).derive ctx params) = none) ∧
    (∀ (p : CachePolicy) (ctx : TaskContext) (params : Params)
       (c : KeyComponent), c ∈ p.components →
       derivedKey (deriveComponent ctx params c) = none →
       derivedKey (p.derive ctx params) = none) := by
  constructor
  · intro p ctx params
    constructor
    · apply derive_none_of_component_none _ _ _ KeyComponent.noCache
      · show KeyComponent.noCache ∈ [KeyComponent.noCache] ++ p.components
        simp
      · rfl
    · apply derive_none_of_component_none _ _ _ KeyComponent.noCache
      · show KeyComponent.noCache ∈ p.components ++ [KeyComponent.noCache]
        simp
      · rfl
  · intro p ctx params c hc hnone
    exact derive_none_of_component_none p ctx params c hc hnone

/-- Claim C6 witness: the combination of the INPUTS policy with the
no-cache policy derives no key at a concrete context and parameter map,
and a policy containing the no-cache component derives no key. -/
theorem nocache_absorbing_witness :
    derivedKey ((NO_CACHE.combine INPUTS).derive ctx0 [("x", PValue.int 1)]) = none ∧
    derivedKey ((INPUTS.combine NO_CACHE).derive ctx0 [("x", PValue.int 1)]) = none ∧
    derivedKey (DEFAULT.combine NO_CACHE |>.derive ctx0 [("x", PValue.int 1)]) = none := by
  refine ⟨(nocache_absorbing.1 INPUTS ctx0 [("x", PValue.int 1)]).1,
          (nocache_absorbing.1 INPUTS ctx0 [("x", PValue.int 1)]).2,
          nocache_absorbing.2 (DEFAULT.combine NO_CACHE) ctx0 [("x", PValue.int 1)]
            KeyComponent.noCache (by simp [CachePolicy.combine, DEFAULT, NO_CACHE]) rfl⟩

/-- Claim C7: input subtraction removes the named parameter from key
derivation: the policy INPUTS minus the input name `debug` derives one and
the same key for the parameter maps with `x` equal to 1 and `debug` false
respectively true, that key exists, and changing the value of `x` to 2
changes the key. -/
theorem inputs_subtraction :
    (INPUTS.subtract "debug").derive ctx0 [("x", PValue.int 1), ("debug", PValue.bool false)]
      = (INPUTS.subtract "debug").derive ctx0 [("x", PValue.int 1), ("debug", PValue.bool true)] ∧
    derivedKey ((INPUTS.subtract "debug").derive ctx0
      [("x", PValue.int 1), ("debug", PValue.bool false)]) ≠ none ∧
    (INPUTS.subtract "debug").derive ctx0 [("x", PValue.int 2), ("debug", PValue.bool false)]
      ≠ (INPUTS.subtract "debug").derive ctx0 [("x", PValue.int 1), ("debug", PValue.bool false)] := by
  refine ⟨by decide, by decide, by decide⟩

section RunnerLemmas

/-- Reading a key right after writing it applies only the expiration
check to the record just written. -/
theorem read_write_self (s : ResultStore) (key : String) (r : ResultRecord)
    (now : Nat) : (s.write key r).read key now = applyExpiration r now := by
  simp [ResultStore.write, ResultStore.read, lookupRecord]

/-- With no open transaction, the cache lookup is the store read. -/
theorem readThroughTx_no_tx (store : ResultStore) (locks : List (String × String))
    (now : Nat) (key : String) :
    readThroughTx ⟨store, [], locks, now⟩ key = store.read key now := rfl

/-- Releasing an empty list of lock keys leaves the lock table unchanged. -/
theorem releaseLocks_nil (locks : List (String × String)) :
    releaseLocks locks [] = locks := by
  simp [releaseLocks]

/-- Under a derivable key, a requested refresh or a cache miss makes the
runner execute the underlying work and stage the result. -/
theorem runTask_exec (spec : TaskSpec) (g : Bool) (ctx : TaskContext)
    (params : Params) (k : String) (st : SysState)
    (hp : spec.config.persist_result = true)
    (hd : spec.config.policy.derive ctx params = .ok (some k))
    (hmiss : effectiveRefresh spec.config.refresh_cache g = true ∨
      readThroughTx st k = none) :
    runTask spec g ctx params st = execStage spec k st := by
  rcases hmiss with h | h
  · simp [runTask, hp, hd, h]
  · cases he : effectiveRefresh spec.config.refresh_cache g
    · simp [runTask, hp, hd, he, h]
    · simp [runTask, hp, hd, he]

/-- Under a derivable key without refresh, an unexpired record
short-circuits the runner to a cached outcome with the stored value. -/
theorem runTask_hit (spec : TaskSpec) (g : Bool) (ctx : TaskContext)
    (params : Params) (k : String) (st : SysState) (r : ResultRecord)
    (hp : spec.config.persist_result = true)
    (hd : spec.config.policy.derive ctx params = .ok (some k))
    (href : effectiveRefresh spec.config.refresh_cache g = false)
    (hfound : readThroughTx st k = some r) :
    runTask spec g ctx params st = (⟨false, true, false, some r.value, false⟩, st) := by
  simp [runTask, hp, hd, href, hfound]

/-- A non-raising execution stages the freshly computed record. -/
theorem execStage_run (spec : TaskSpec) (k : String) (st : SysState)
    (h : spec.raises = false) :
    execStage spec k st
      = (⟨true, false, false, some spec.work, false⟩,
         stageWrite st k ⟨k, spec.work, st.now,
           spec.config.cache_expiration.map (fun d => st.now + d)⟩) := by
  simp [execStage, h]

/-- A raising execution stages nothing and leaves the state unchanged. -/
theorem execStage_raised (spec : TaskSpec) (k : String) (st : SysState)
    (h : spec.raises = true) :
    execStage spec k st = (⟨true, false, true, none, false⟩, st) := by
  simp [execStage, h]

end RunnerLemmas

/-- The constant-key policy derives its constant key. -/
theorem constKeyPolicy_derive (k : String) (ctx : TaskContext) (params : Params) :
    (constKeyPolicy k).derive ctx params = .ok (some k) := rfl

/-- Claim C4: the store read checks expiration: a stored record whose
expiration timestamp is earlier than the read time is treated as absent;
concretely, a record written with a one-second expiration is a cache hit
when read back at the write time and a cache miss, re-executing the
underlying work, two seconds later. -/
theorem read_checks_expiration :
    (∀ (s : ResultStore) (k : String) (r : ResultRecord) (t now : Nat),
       lookupRecord s.records k = some r → r.expiration = some t → t < now →
       s.read k now = none) ∧
    (∀ (store0 : ResultStore) (k : String) (v : PValue) (T : Nat)
       (locks0 : List (String × String)) (ctx : TaskContext) (params : Params),
       lookupRecord store0.records k = none →
       runTask (taskC4 k v) false ctx params ⟨store0, [], locks0, T⟩
         = (⟨true, false, false, some v, false⟩,
            ⟨store0.write k ⟨k, v, T, some (T + 1)⟩, [], locks0, T⟩) ∧
       (runTask (taskC4 k v) false ctx params
          ⟨store0.write k ⟨k, v, T, some (T + 1)⟩, [], locks0, T⟩).1
         = ⟨false, true, false, some v, false⟩ ∧
       (runTask (taskC4 k v) false ctx params
          ⟨store0.write k ⟨k, v, T, some (T + 1)⟩, [], locks0, T + 2⟩).1
         = ⟨true, false, false, some v, false⟩) := by
  constructor
  · intro s k r t now hl he ht
    simp [ResultStore.read, hl, applyExpiration, he, ht]
  · intro store0 k v T locks0 ctx params hmiss
    have hread0 : readThroughTx ⟨store0, [], locks0, T⟩ k = none := by
      simp [readThroughTx_no_tx, ResultStore.read, hmiss]
    refine ⟨?_, ?_, ?_⟩
    · rw [runTask_exec _ _ _ _ k _ rfl (constKeyPolicy_derive k ctx params)
        (Or.inr hread0)]
      rw [execStage_run _ _ _ rfl]
      rfl
    · have hhit : readThroughTx
          ⟨store0.write k ⟨k, v, T, some (T + 1)⟩, [], locks0, T⟩ k
          = some ⟨k, v, T, some (T + 1)⟩ := by
        rw [readThroughTx_no_tx, read_write_self]
        have hnl : ¬ (T + 1 < T) := Nat.not_lt.mpr (Nat.le_add_right T 1)
        simp [applyExpiration, hnl]
      rw [runTask_hit (taskC4 k v) false ctx params k _ _ rfl
        (constKeyPolicy_derive k ctx params) rfl hhit]
    · have hmiss2 : readThroughTx
          ⟨store0.write k ⟨k, v, T, some (T + 1)⟩, [], locks0, T + 2⟩ k
          = none := by
        rw [readThroughTx_no_tx, read_write_self]
        have hlt : T + 1 < T + 2 := Nat.lt_succ_self (T + 1)
        simp [applyExpiration, hlt]
      rw [runTask_exec _ _ _ _ k _ rfl (constKeyPolicy_derive k ctx params)
        (Or.inr hmiss2)]
      rw [execStage_run _ _ _ rfl]
      rfl

/-- Claim C4 witness: the expiration scenario evaluated at a concrete key,
value and write time. -/
theorem read_checks_expiration_witness :
    (ResultStore.read ⟨[("k", ⟨"k", PValue.int 5, 0, some 3⟩)]⟩ "k" 10 = none) ∧
    (runTask (taskC4 "k4" (PValue.int 8)) false ctx0 []
       ⟨(ResultStore.mk []).write "k4" ⟨"k4", PValue.int 8, 7, some 8⟩, [], [], 7⟩).1
      = ⟨false, true, false, some (PValue.int 8), false⟩ ∧
    (runTask (taskC4 "k4" (PValue.int 8)) false ctx0 []
       ⟨(ResultStore.mk []).write "k4" ⟨"k4", PValue.int 8, 7, some 8⟩, [], [], 9⟩).1
      = ⟨true, false, false, some (PValue.int 8), false⟩ := by
  refine ⟨?_, ?_, ?_⟩
  · exact read_checks_expiration.1 ⟨[("k", ⟨"k", PValue.int 5, 0, some 3⟩)]⟩ "k"
      ⟨"k", PValue.int 5, 0, some 3⟩ 3 10 (by decide) rfl (by decide)
  · exact (read_checks_expiration.2 ⟨[]⟩ "k4" (PValue.int 8) 7 [] ctx0 [] rfl).2.1
  · exact (read_checks_expiration.2 ⟨[]⟩ "k4" (PValue.int 8) 7 [] ctx0 [] rfl).2.2

/-- Claim C5: an invocation with refresh requested skips the cache lookup,
executes the underlying work and still stages the write, so with no open
transaction the stored record for the key is overwritten even when a
valid unexpired record exists; and an invocation with refresh explicitly
disabled never re-executes while a valid unexpired record exists,
regardless of the process-wide default-refresh flag. -/
theorem refresh_cache_semantics :
    (∀ (spec : TaskSpec) (g : Bool) (ctx : TaskContext) (params : Params)
       (k : String) (st : SysState) (r : ResultRecord),
       spec.config.persist_result = true →
       spec.config.policy.derive ctx params = .ok (some k) →
       spec.raises = false →
       spec.config.refresh_cache = .forceRefresh →
       readThroughTx st k = some r →
       runTask spec g ctx params st
         = (⟨true, false, false, some spec.work, false⟩,
            stageWrite st k ⟨k, spec.work, st.now,
              spec.config.cache_expiration.map (fun d => st.now + d)⟩) ∧
       (st.txStack = [] →
        (runTask spec g ctx params st).2.store
          = st.store.write k ⟨k, spec.work, st.now,
              spec.config.cache_expiration.map (fun d => st.now + d)⟩)) ∧
    (∀ (spec : TaskSpec) (g : Bool) (ctx : TaskContext) (params : Params)
       (k : String) (st : SysState) (r : ResultRecord),
       spec.config.persist_result = true →
       spec.config.policy.derive ctx params = .ok (some k) →
       spec.config.refresh_cache = .neverRefresh →
       readThroughTx st k = some r →
       runTask spec g ctx params st
         = (⟨false, true, false, some r.value, false⟩, st)) := by
  constructor
  · intro spec g ctx params k st r hp hd hr hrf _
    have hmain : runTask spec g ctx params st = execStage spec k st :=
      runTask_exec spec g ctx params k st hp hd (Or.inl (by simp [effectiveRefresh, hrf]))
    rw [hmain, execStage_run _ _ _ hr]
    refine ⟨rfl, ?_⟩
    intro htx
    cases st with
    | mk store txStack locks now =>
        simp at htx
        subst htx
        simp [stageWrite]
  · intro spec g ctx params k st r hp hd hrf hfound
    exact runTask_hit spec g ctx params k st r hp hd (by simp [effectiveRefresh, hrf]) hfound

/-- Claim C5 witness: with a valid record stored, the refreshing task
re-executes and overwrites the record while the non-refreshing task
returns the cached value, under both settings of the global refresh
flag. -/
theorem refresh_cache_semantics_witness :
    (runTask taskC5a false ctx0 [] ⟨storeC5, [], [], 3⟩).2.store
      = storeC5.write "k5" ⟨"k5", PValue.int 2, 3, none⟩ ∧
    (runTask taskC5b true ctx0 [] ⟨storeC5, [], [], 3⟩)
      = (⟨false, true, false, some (PValue.int 1), false⟩, ⟨storeC5, [], [], 3⟩) := by
  constructor
  · exact (refresh_cache_semantics.1 taskC5a false ctx0 [] "k5" ⟨storeC5, [], [], 3⟩
      ⟨"k5", PValue.int 1, 0, none⟩ rfl rfl rfl rfl rfl).2 rfl
  · exact refresh_cache_semantics.2 taskC5b true ctx0 [] "k5" ⟨storeC5, [], [], 3⟩
      ⟨"k5", PValue.int 1, 0, none⟩ rfl rfl rfl rfl

/-- Claim C9: a failing key derivation surfaces as the distinct
key-derivation error kind rather than a degenerate key (an unserializable
input makes the INPUTS policy derivation fail with that error), and the
runner then treats the invocation as no-cache: it executes the work
unconditionally, emits the diagnostic, returns the computed result and
leaves the system state untouched. -/
theorem derive_error_no_cache :
    (∀ (ctx : TaskContext) (name : String) (rest : Params),
       INPUTS.derive ctx ((name, PValue.unserializable) :: rest)
         = .error (.keyDerivationError "unserializable input")) ∧
    (∀ (spec : TaskSpec) (g : Bool) (ctx : TaskContext) (params : Params)
       (e : DeriveError) (st : SysState),
       spec.config.persist_result = true →
       spec.config.policy.derive ctx params = .error e →
       spec.raises = false →
       runTask spec g ctx params st
         = (⟨true, false, false, some spec.work, true⟩, st)) := by
  constructor
  · intro ctx name rest
    rfl
  · intro spec g ctx params e st hp hd hr
    simp [runTask, hp, hd, hr]

/-- Claim C9 witness: at a concrete unserializable parameter the INPUTS
derivation fails with the key-derivation error and the runner still
executes the task, emits the diagnostic and returns the result. -/
theorem derive_error_no_cache_witness :
    INPUTS.derive ctx0 [("obj", PValue.unserializable)]
      = .error (.keyDerivationError "unserializable input") ∧
    runTask taskC9 false ctx0 [("obj", PValue.unserializable)] ⟨⟨[]⟩, [], [], 0⟩
      = (⟨true, false, false, some (PValue.str "out"), true⟩, ⟨⟨[]⟩, [], [], 0⟩) := by
  refine ⟨derive_error_no_cache.1 ctx0 "obj" [], ?_⟩
  exact derive_error_no_cache.2 taskC9 false ctx0 [("obj", PValue.unserializable)]
    (.keyDerivationError "unserializable input") ⟨⟨[]⟩, [], [], 0⟩ rfl
    (derive_error_no_cache.1 ctx0 "obj" []) rfl

/-- Claim C10: caching requires result persistence: a task configured not
to persist its result never uses the cache: the runner performs no lookup
(never a cached outcome) and writes nothing (the whole system state is
unchanged), executing the work unconditionally, even when the policy
derives a key and a valid record exists. -/
theorem caching_requires_persistence (spec : TaskSpec) (g : Bool)
    (ctx : TaskContext) (params : Params) (st : SysState)
    (hp : spec.config.persist_result = false) (hr : spec.raises = false) :
    runTask spec g ctx params st = (⟨true, false, false, some spec.work, false⟩, st) := by
  simp [runTask, hp, hr]

/-- Claim C10 witness: the non-persisting task executes and leaves the
state unchanged even though its policy derives the key of a valid stored
record. -/
theorem caching_requires_persistence_witness :
    taskC10.config.policy.derive ctx0 [] = .ok (some "k10") ∧
    runTask taskC10 false ctx0 []
        ⟨⟨[("k10", ⟨"k10", PValue.int 99, 0, none⟩)]⟩, [], [], 5⟩
      = (⟨true, false, false, some (PValue.int 7), false⟩,
         ⟨⟨[("k10", ⟨"k10", PValue.int 99, 0, none⟩)]⟩, [], [], 5⟩) := by
  refine ⟨rfl, ?_⟩
  exact caching_requires_persistence taskC10 false ctx0 []
    ⟨⟨[("k10", ⟨"k10", PValue.int 99, 0, none⟩)]⟩, [], [], 5⟩ rfl rfl

section MergeLemmas

/-- Association lookup over an appended list checks the left part first. -/
theorem lookupRecord_append (l1 l2 : List (String × ResultRecord)) (k : String) :
    lookupRecord (l1 ++ l2) k
      = match lookupRecord l1 k with
        | some r => some r
        | none => lookupRecord l2 k := by
  induction l1 with
  | nil => simp [lookupRecord]
  | cons kr rest ih =>
      by_cases h : kr.1 = k
      · simp [lookupRecord, h]
      · simp [lookupRecord, h, ih]

/-- Association lookup succeeds exactly when some entry carries the key. -/
theorem lookupRecord_isSome_iff_any (l : List (String × ResultRecord)) (k : String) :
    (lookupRecord l k).isSome = l.any (fun kr => kr.1 == k) := by
  induction l with
  | nil => rfl
  | cons kr rest ih =>
      by_cases h : kr.1 = k
      · simp [lookupRecord, h]
      · simp [lookupRecord, h, ih]

/-- Filtering with a predicate that keeps every entry carrying the key
does not change the lookup for that key. -/
theorem lookupRecord_filter_of (l : List (String × ResultRecord))
    (p : String × ResultRecord → Bool) (k : String)
    (hall : ∀ kr, kr ∈ l → kr.1 = k → p kr = true) :
    lookupRecord (l.filter p) k = lookupRecord l k := by
  induction l with
  | nil => rfl
  | cons kr rest ih =>
      have ihkept : lookupRecord (rest.filter p) k = lookupRecord rest k :=
        ih (fun x hx hk => hall x (List.mem_cons_of_mem _ hx) hk)
      by_cases hk : kr.1 = k
      · have hp : p kr = true := hall kr (List.mem_cons_self _ _) hk
        simp [List.filter, hp, lookupRecord, hk]
      · by_cases hp : p kr = true
        · simp [List.filter, hp, lookupRecord, hk, ihkept]
        · simp at hp
          simp [List.filter, hp, lookupRecord, hk, ihkept]

/-- Association lookup fails when no entry carries the key. -/
theorem lookupRecord_eq_none_of_all_ne (l : List (String × ResultRecord))
    (k : String) (h : ∀ kr, kr ∈ l → kr.1 ≠ k) : lookupRecord l k = none := by
  induction l with
  | nil => rfl
  | cons kr rest ih =>
      simp [lookupRecord, h kr (List.mem_cons_self _ _)]
      exact ih (fun x hx => h x (List.mem_cons_of_mem _ hx))

/-- Parent wins on key collision: in the merged staged set the winning
record for a key is the parent record when the parent staged that key,
and the child record otherwise. -/
theorem lastStaged_merge (parent child : List (String × ResultRecord)) (k : String) :
    lastStagedRecord (mergeStaged parent child) k
      = (lastStagedRecord parent k).or (lastStagedRecord child k) := by
  unfold lastStagedRecord mergeStaged
  rw [List.reverse_append, lookupRecord_append]
  have hbridge : (lookupRecord parent.reverse k).isSome
      = parent.any (fun pr => pr.1 == k) := by
    rw [lookupRecord_isSome_iff_any, List.any_reverse]
  cases hany : parent.any (fun pr => pr.1 == k) with
  | true =>
      -- the parent staged the key: the child contribution was filtered out
      have hcf : lookupRecord
          ((child.filter (fun kr => !(parent.any (fun pr => pr.1 == kr.1)))).reverse) k
          = none := by
        apply lookupRecord_eq_none_of_all_ne
        intro kr hmem hkk
        have hmem2 := List.mem_filter.mp (List.mem_reverse.mp hmem)
        have hval := hmem2.2
        rw [hkk, hany] at hval
        simp at hval
      rw [hcf]
      cases hlp : lookupRecord parent.reverse k with
      | none => rw [hlp, hany] at hbridge; simp at hbridge
      | some r => rfl
  | false =>
      -- the parent did not stage the key: the child record survives
      have hlp : lookupRecord parent.reverse k = none := by
        cases hlpe : lookupRecord parent.reverse k with
        | none => rfl
        | some r => rw [hlpe, hany] at hbridge; simp at hbridge
      rw [hlp, ← List.filter_reverse, lookupRecord_filter_of]
      · cases lookupRecord child.reverse k <;> rfl
      · intro kr hmem hkk
        rw [hkk, hany]
        rfl

end MergeLemmas

/-- Claim C8: a nested transaction that exits without error merges its
staged writes into its parent staged set with the parent winning on key
collision, becomes committed without any store write occurring, and only
the outermost transaction writes staged records to the store when it
commits. -/
theorem tx_nested_commit :
    (∀ (child parent : Transaction) (rest : List Transaction)
       (store : ResultStore) (locks : List (String × String)) (now : Nat),
       commitTx ⟨store, child :: parent :: rest, locks, now⟩
         = (⟨store,
             ⟨mergeStaged parent.staged child.staged, parent.txState,
              parent.heldLocks ++ child.heldLocks⟩ :: rest, locks, now⟩,
            some ⟨child.staged, .committed, child.heldLocks⟩)) ∧
    (∀ (parent child : List (String × ResultRecord)) (k : String),
       lastStagedRecord (mergeStaged parent child) k
         = (lastStagedRecord parent k).or (lastStagedRecord child k)) ∧
    (∀ (tx : Transaction) (store : ResultStore)
       (locks : List (String × String)) (now : Nat),
       commitTx ⟨store, [tx], locks, now⟩
         = (⟨commitWrites store tx.staged, [],
             releaseLocks locks tx.heldLocks, now⟩,
            some ⟨tx.staged, .committed, []⟩)) := by
  refine ⟨fun child parent rest store locks now => rfl,
          fun parent child k => lastStaged_merge parent child k,
          fun tx store locks now => rfl⟩

/-- A failed two-task scope computes to a rolled-back outcome: the first
task executes and stages, the second raises, and the rollback restores
exactly the initial system state. -/
theorem scope_rollback_eq (t1 t2 : TaskSpec) (g : Bool) (ctx : TaskContext)
    (p1 p2 : Params) (store0 : ResultStore) (locks0 : List (String × String))
    (T : Nat) (k1 k2 : String)
    (hp1 : t1.config.persist_result = true) (hp2 : t2.config.persist_result = true)
    (hd1 : t1.config.policy.derive ctx p1 = .ok (some k1))
    (hd2 : t2.config.policy.derive ctx p2 = .ok (some k2))
    (hk : k1 ≠ k2)
    (hr1 : t1.raises = false) (hr2 : t2.raises = true)
    (hm1 : store0.read k1 T = none) (hm2 : store0.read k2 T = none) :
    runTwoTaskScope t1 t2 g ctx p1 p2 ⟨store0, [], locks0, T⟩
      = ⟨⟨store0, [], locks0, T⟩, false,
         some ⟨true, false, false, some t1.work, false⟩,
         some ⟨true, false, true, none, false⟩⟩ := by
  have hmiss1 : readThroughTx ⟨store0, [⟨[], .opened, []⟩], locks0, T⟩ k1 = none := by
    simp [readThroughTx, lookupStaged, lastStagedRecord, lookupRecord, hm1]
  have h1 : runTask t1 g ctx p1 ⟨store0, [⟨[], .opened, []⟩], locks0, T⟩
      = (⟨true, false, false, some t1.work, false⟩,
         ⟨store0,
          [⟨[(k1, ⟨k1, t1.work, T, t1.config.cache_expiration.map (fun d => T + d)⟩)],
            .opened, []⟩], locks0, T⟩) := by
    rw [runTask_exec t1 g ctx p1 k1 _ hp1 hd1 (Or.inr hmiss1),
        execStage_run t1 k1 _ hr1]
    simp [stageWrite]
  have hmiss2 : readThroughTx
      ⟨store0,
       [⟨[(k1, ⟨k1, t1.work, T, t1.config.cache_expiration.map (fun d => T + d)⟩)],
         .opened, []⟩], locks0, T⟩ k2 = none := by
    simp [readThroughTx, lookupStaged, lastStagedRecord, lookupRecord, hk, hm2]
  have h2 : runTask t2 g ctx p2
      ⟨store0,
       [⟨[(k1, ⟨k1, t1.work, T, t1.config.cache_expiration.map (fun d => T + d)⟩)],
         .opened, []⟩], locks0, T⟩
      = (⟨true, false, true, none, false⟩,
         ⟨store0,
          [⟨[(k1, ⟨k1, t1.work, T, t1.config.cache_expiration.map (fun d => T + d)⟩)],
            .opened, []⟩], locks0, T⟩) := by
    rw [runTask_exec t2 g ctx p2 k2 _ hp2 hd2 (Or.inr hmiss2),
        execStage_raised t2 k2 _ hr2]
  simp [runTwoTaskScope, beginTx, h1, h2, rollbackTx, releaseLocks_nil]

/-- Claim C1: transactional atomicity of multi-task caching: in an
outermost transaction scope running two staging tasks where the second
raises, the scope fails and rolls back to exactly the initial system
state, so neither task record exists in the store afterwards (the store,
initially without live records for either key, is unchanged), and
re-running the same scope executes both tasks again instead of resuming
from a partial cache state. -/
theorem tx_atomic_rollback (t1 t2 : TaskSpec) (g : Bool) (ctx : TaskContext)
    (p1 p2 : Params) (store0 : ResultStore) (locks0 : List (String × String))
    (T : Nat) (k1 k2 : String)
    (hp1 : t1.config.persist_result = true) (hp2 : t2.config.persist_result = true)
    (hd1 : t1.config.policy.derive ctx p1 = .ok (some k1))
    (hd2 : t2.config.policy.derive ctx p2 = .ok (some k2))
    (hk : k1 ≠ k2)
    (hr1 : t1.raises = false) (hr2 : t2.raises = true)
    (hm1 : store0.read k1 T = none) (hm2 : store0.read k2 T = none) :
    runTwoTaskScope t1 t2 g ctx p1 p2 ⟨store0, [], locks0, T⟩
      = ⟨⟨store0, [], locks0, T⟩, false,
         some ⟨true, false, false, some t1.work, false⟩,
         some ⟨true, false, true, none, false⟩⟩ ∧
    runTwoTaskScope t1 t2 g ctx p1 p2
        (runTwoTaskScope t1 t2 g ctx p1 p2 ⟨store0, [], locks0, T⟩).finalState
      = ⟨⟨store0, [], locks0, T⟩, false,
         some ⟨true, false, false, some t1.work, false⟩,
         some ⟨true, false, true, none, false⟩⟩ := by
  have hmain := scope_rollback_eq t1 t2 g ctx p1 p2 store0 locks0 T k1 k2
    hp1 hp2 hd1 hd2 hk hr1 hr2 hm1 hm2
  refine ⟨hmain, ?_⟩
  rw [hmain]
  exact hmain

/-- Claim C1 witness: the two-task doc scenario run against an empty
store fails, leaves the state unchanged and executes both tasks again on
the rerun. -/
theorem tx_atomic_rollback_witness :
    runTwoTaskScope taskC1a taskC1b false ctx0 [] [] ⟨⟨[]⟩, [], [], 0⟩
      = ⟨⟨⟨[]⟩, [], [], 0⟩, false,
         some ⟨true, false, false, some (PValue.str "some-data"), false⟩,
         some ⟨true, false, true, none, false⟩⟩ ∧
    runTwoTaskScope taskC1a taskC1b false ctx0 [] []
        (runTwoTaskScope taskC1a taskC1b false ctx0 [] [] ⟨⟨[]⟩, [], [], 0⟩).finalState
      = ⟨⟨⟨[]⟩, [], [], 0⟩, false,
         some ⟨true, false, false, some (PValue.str "some-data"), false⟩,
         some ⟨true, false, true, none, false⟩⟩ := by
  exact tx_atomic_rollback taskC1a taskC1b false ctx0 [] [] ⟨[]⟩ [] 0
    "static-key-1" "static-key-2" rfl rfl rfl rfl (by decide) rfl rfl rfl rfl

/-- Claim C3: under SERIALIZABLE isolation, in every complete interleaved
run of two concurrent invocations sharing one cache key and one lock
manager, exactly one invocation executes the underlying work and the
other observes exactly the committed cached value the executor wrote. -/
theorem serializable_one_executes (v0 v1 : PValue) (s : SerialState)
    (hr : SerialReachable v0 v1 s) (h0 : isDone s.ph0) (h1 : isDone s.ph1) :
    (s.ph0 = .doneExec ∧ s.ph1 = .doneCached v0 ∧ s.committed = some v0) ∨
    (s.ph1 = .doneExec ∧ s.ph0 = .doneCached v1 ∧ s.committed = some v1) := by
  obtain ⟨i1, i2, i3, i4, i5, i6, i7, i8, i9, i10⟩ := serialInv_reachable v0 v1 s hr
  have H0 : s.ph0 = .doneExec ∨ ∃ w, s.ph0 = .doneCached w := by
    cases hph0 : s.ph0 with
    | start => rw [hph0] at h0; simp [isDone] at h0
    | haveLock => rw [hph0] at h0; simp [isDone] at h0
    | running => rw [hph0] at h0; simp [isDone] at h0
    | doneCached w => exact Or.inr ⟨w, rfl⟩
    | doneExec => exact Or.inl rfl
  have H1 : s.ph1 = .doneExec ∨ ∃ w, s.ph1 = .doneCached w := by
    cases hph1 : s.ph1 with
    | start => rw [hph1] at h1; simp [isDone] at h1
    | haveLock => rw [hph1] at h1; simp [isDone] at h1
    | running => rw [hph1] at h1; simp [isDone] at h1
    | doneCached w => exact Or.inr ⟨w, rfl⟩
    | doneExec => exact Or.inl rfl
  rcases H0 with h0e | ⟨w0, h0c⟩ <;> rcases H1 with h1e | ⟨w1, h1c⟩
  · exact absurd ⟨h0e, h1e⟩ i10
  · -- invocation 0 executed, invocation 1 took the cached value
    have hc0 := i5 h0e
    have hc1 := i8 w1 h1c
    rw [hc0] at hc1
    have hw : w1 = v0 := (Option.some.inj hc1).symm
    rw [hw] at h1c
    exact Or.inl ⟨h0e, h1c, hc0⟩
  · -- invocation 1 executed, invocation 0 took the cached value
    have hc1 := i6 h1e
    have hc0 := i7 w0 h0c
    rw [hc1] at hc0
    have hw : w0 = v1 := (Option.some.inj hc0).symm
    rw [hw] at h0c
    exact Or.inr ⟨h1e, h0c, hc1⟩
  · -- both cached is impossible: someone must have written the record
    have hcommit := i7 w0 h0c
    have hsome : s.committed.isSome = true := by rw [hcommit]; rfl
    rcases i9 hsome with he0 | he1
    · rw [h0c] at he0; simp at he0
    · rw [h1c] at he1; simp at he1

/-- Claim C3 witness: a complete concrete run in which the first
invocation acquires the lock, misses, executes and commits, and the
second invocation then acquires the lock and observes the committed
value. -/
theorem serializable_one_executes_witness :
    ((⟨some (PValue.int 1), none, .doneExec, .doneCached (PValue.int 1)⟩ : SerialState).ph0
        = .doneExec ∧
     (⟨some (PValue.int 1), none, .doneExec, .doneCached (PValue.int 1)⟩ : SerialState).ph1
        = .doneCached (PValue.int 1) ∧
     (⟨some (PValue.int 1), none, .doneExec, .doneCached (PValue.int 1)⟩ : SerialState).committed
        = some (PValue.int 1)) ∨
    ((⟨some (PValue.int 1), none, .doneExec, .doneCached (PValue.int 1)⟩ : SerialState).ph1
        = .doneExec ∧
     (⟨some (PValue.int 1), none, .doneExec, .doneCached (PValue.int 1)⟩ : SerialState).ph0
        = .doneCached (PValue.int 2) ∧
     (⟨some (PValue.int 1), none, .doneExec, .doneCached (PValue.int 1)⟩ : SerialState).committed
        = some (PValue.int 2)) := by
  have hreach : SerialReachable (PValue.int 1) (PValue.int 2)
      ⟨some (PValue.int 1), none, .doneExec, .doneCached (PValue.int 1)⟩ :=
    Relation.ReflTransGen.head (SerialStep.acquire0 none .start)
      (Relation.ReflTransGen.head (SerialStep.miss0 (some .w0) .start)
        (Relation.ReflTransGen.head (SerialStep.commit0 none (some .w0) .start)
          (Relation.ReflTransGen.head (SerialStep.acquire1 (some (PValue.int 1)) .doneExec)
            (Relation.ReflTransGen.head
              (SerialStep.hit1 (PValue.int 1) (some .w1) .doneExec)
              Relation.ReflTransGen.refl))))
  exact serializable_one_executes (PValue.int 1) (PValue.int 2) _ hreach trivial trivial

end PrefectCaching
